import Mathlib

/-!
Verification development for the `rust-syslog-rfc5424` crate.

The definitions below are a shallow embedding of the crate's source:
* `src/severity.rs` — the `SyslogSeverity` enumeration and its conversions,
* `src/facility.rs` — the `SyslogFacility` enumeration and its conversions,
* `src/message.rs`  — `ProcId`, `StructuredData`, `SyslogMessage` and their
  serde instances (the generic serialized form is represented by the
  `SerdeValue` tree below),
* the RFC 5424 grammar walk (`parser::parse_message`), whose source file is
  not part of the sources at hand and is therefore modelled from the spec.

Machine integers (`i32`, `i64`, `u32`) are embedded as `Int`/`Nat`, with
explicit range checks exactly where the source performs them.  Rust's
`BTreeMap` is embedded as an association list; only its observable `get` /
`insert` / `len` behaviour matters to the claims, and the distinct-keys
invariant that `BTreeMap` maintains internally appears as an explicit
`Nodup` well-formedness hypothesis where a claim needs it.
-/

set_option maxHeartbeats 1000000

namespace Syslog

/-- From `src/severity.rs`: the closed severity enumeration (8 values).
The Rust declaration assigns explicit discriminants `SEV_EMERG = 0` …
`SEV_DEBUG = 7`, captured by `SyslogSeverity.toInt` below. -/
inductive SyslogSeverity
  | SEV_EMERG
  | SEV_ALERT
  | SEV_CRIT
  | SEV_ERR
  | SEV_WARNING
  | SEV_NOTICE
  | SEV_INFO
  | SEV_DEBUG
  deriving DecidableEq, Repr

/-- The explicit discriminant values of the Rust enum (`SEV_EMERG = 0`, …,
`SEV_DEBUG = 7`); this is what `severity as i32` evaluates to. -/
def SyslogSeverity.toInt : SyslogSeverity → Int
  | .SEV_EMERG => 0
  | .SEV_ALERT => 1
  | .SEV_CRIT => 2
  | .SEV_ERR => 3
  | .SEV_WARNING => 4
  | .SEV_NOTICE => 5
  | .SEV_INFO => 6
  | .SEV_DEBUG => 7

/-- Position of the variant in declaration order.  Rust's
`#[derive(PartialOrd, Ord)]` on a fieldless enum orders values by variant
(declaration order coincides with the discriminants here); the derived
order is `derivedLe` below. -/
def SyslogSeverity.ctorIdx : SyslogSeverity → Nat
  | .SEV_EMERG => 0
  | .SEV_ALERT => 1
  | .SEV_CRIT => 2
  | .SEV_ERR => 3
  | .SEV_WARNING => 4
  | .SEV_NOTICE => 5
  | .SEV_INFO => 6
  | .SEV_DEBUG => 7

/-- The `<=` of the derived `Ord` on `SyslogSeverity`. -/
def SyslogSeverity.derivedLe (a b : SyslogSeverity) : Prop :=
  a.ctorIdx ≤ b.ctorIdx

instance (a b : SyslogSeverity) : Decidable (a.derivedLe b) :=
  inferInstanceAs (Decidable (a.ctorIdx ≤ b.ctorIdx))

/-- From `src/severity.rs`: `SyslogSeverityError` (single variant). -/
inductive SyslogSeverityError
  | InvalidInteger
  deriving DecidableEq, Repr

/-- Error type of the grammar walk.  `src/parser.rs` is not among the
sources; the taxonomy is modelled from the spec's error-handling design
(one variant per grammar-violation site), keeping the two variants that
`src/facility.rs` / `src/severity.rs` construct by name. -/
inductive ParseErr
  | BadSeverityInPri
  | BadFacilityInPri
  | BadPriority
  | BadVersion
  | BadTimestamp
  | BadStructuredData
  | UnexpectedEndOfInput
  deriving DecidableEq, Repr

/-- From `src/severity.rs`: `impl TryFrom<i32> for SyslogSeverity`.  The
Rust source matches on the integer literals `0..=7` and falls through to
`Err(InvalidInteger)`; the literal match is embedded as the equivalent
chain of equality tests. -/
def SyslogSeverity.try_from (i : Int) : Except SyslogSeverityError SyslogSeverity :=
  if i = 0 then .ok .SEV_EMERG
  else if i = 1 then .ok .SEV_ALERT
  else if i = 2 then .ok .SEV_CRIT
  else if i = 3 then .ok .SEV_ERR
  else if i = 4 then .ok .SEV_WARNING
  else if i = 5 then .ok .SEV_NOTICE
  else if i = 6 then .ok .SEV_INFO
  else if i = 7 then .ok .SEV_DEBUG
  else .error .InvalidInteger

/-- From `src/severity.rs`: `SyslogSeverity::from_int`, i.e.
`Self::try_from(i).ok()`. -/
def SyslogSeverity.from_int (i : Int) : Option SyslogSeverity :=
  (SyslogSeverity.try_from i).toOption

/-- From `src/severity.rs`: `SyslogSeverity::as_str`. -/
def SyslogSeverity.as_str : SyslogSeverity → String
  | .SEV_EMERG => "emerg"
  | .SEV_ALERT => "alert"
  | .SEV_CRIT => "crit"
  | .SEV_ERR => "err"
  | .SEV_WARNING => "warning"
  | .SEV_NOTICE => "notice"
  | .SEV_INFO => "info"
  | .SEV_DEBUG => "debug"

/-- From `src/severity.rs`: `SyslogSeverity::from_str` (a match on the
eight canonical names, else `Err(ParseErr::BadSeverityInPri)`). -/
def SyslogSeverity.from_str (v : String) : Except ParseErr SyslogSeverity :=
  if v = "emerg" then .ok .SEV_EMERG
  else if v = "alert" then .ok .SEV_ALERT
  else if v = "crit" then .ok .SEV_CRIT
  else if v = "err" then .ok .SEV_ERR
  else if v = "warning" then .ok .SEV_WARNING
  else if v = "notice" then .ok .SEV_NOTICE
  else if v = "info" then .ok .SEV_INFO
  else if v = "debug" then .ok .SEV_DEBUG
  else .error .BadSeverityInPri

/-- From `src/facility.rs`: the closed facility enumeration (24 values,
explicit discriminants `LOG_KERN = 0` … `LOG_LOCAL7 = 23`). -/
inductive SyslogFacility
  | LOG_KERN
  | LOG_USER
  | LOG_MAIL
  | LOG_DAEMON
  | LOG_AUTH
  | LOG_SYSLOG
  | LOG_LPR
  | LOG_NEWS
  | LOG_UUCP
  | LOG_CRON
  | LOG_AUTHPRIV
  | LOG_FTP
  | LOG_NTP
  | LOG_AUDIT
  | LOG_ALERT
  | LOG_CLOCKD
  | LOG_LOCAL0
  | LOG_LOCAL1
  | LOG_LOCAL2
  | LOG_LOCAL3
  | LOG_LOCAL4
  | LOG_LOCAL5
  | LOG_LOCAL6
  | LOG_LOCAL7
  deriving DecidableEq, Repr

/-- The explicit discriminant values of the Rust enum (`LOG_KERN = 0`, …,
`LOG_LOCAL7 = 23`); this is what `facility as i32` evaluates to. -/
def SyslogFacility.toInt : SyslogFacility → Int
  | .LOG_KERN => 0
  | .LOG_USER => 1
  | .LOG_MAIL => 2
  | .LOG_DAEMON => 3
  | .LOG_AUTH => 4
  | .LOG_SYSLOG => 5
  | .LOG_LPR => 6
  | .LOG_NEWS => 7
  | .LOG_UUCP => 8
  | .LOG_CRON => 9
  | .LOG_AUTHPRIV => 10
  | .LOG_FTP => 11
  | .LOG_NTP => 12
  | .LOG_AUDIT => 13
  | .LOG_ALERT => 14
  | .LOG_CLOCKD => 15
  | .LOG_LOCAL0 => 16
  | .LOG_LOCAL1 => 17
  | .LOG_LOCAL2 => 18
  | .LOG_LOCAL3 => 19
  | .LOG_LOCAL4 => 20
  | .LOG_LOCAL5 => 21
  | .LOG_LOCAL6 => 22
  | .LOG_LOCAL7 => 23

/-- Position of the variant in declaration order, used by the derived
`Ord` (see `SyslogSeverity.ctorIdx`). -/
def SyslogFacility.ctorIdx : SyslogFacility → Nat
  | .LOG_KERN => 0
  | .LOG_USER => 1
  | .LOG_MAIL => 2
  | .LOG_DAEMON => 3
  | .LOG_AUTH => 4
  | .LOG_SYSLOG => 5
  | .LOG_LPR => 6
  | .LOG_NEWS => 7
  | .LOG_UUCP => 8
  | .LOG_CRON => 9
  | .LOG_AUTHPRIV => 10
  | .LOG_FTP => 11
  | .LOG_NTP => 12
  | .LOG_AUDIT => 13
  | .LOG_ALERT => 14
  | .LOG_CLOCKD => 15
  | .LOG_LOCAL0 => 16
  | .LOG_LOCAL1 => 17
  | .LOG_LOCAL2 => 18
  | .LOG_LOCAL3 => 19
  | .LOG_LOCAL4 => 20
  | .LOG_LOCAL5 => 21
  | .LOG_LOCAL6 => 22
  | .LOG_LOCAL7 => 23

/-- The `<=` of the derived `Ord` on `SyslogFacility`. -/
def SyslogFacility.derivedLe (a b : SyslogFacility) : Prop :=
  a.ctorIdx ≤ b.ctorIdx

instance (a b : SyslogFacility) : Decidable (a.derivedLe b) :=
  inferInstanceAs (Decidable (a.ctorIdx ≤ b.ctorIdx))

/-- From `src/facility.rs`: `SyslogFacilityError` (single variant). -/
inductive SyslogFacilityError
  | InvalidInteger
  deriving DecidableEq, Repr

/-- From `src/facility.rs`: `impl TryFrom<i32> for SyslogFacility` (a match
on the integer literals `0..=23`, else `Err(InvalidInteger)`). -/
def SyslogFacility.try_from (i : Int) : Except SyslogFacilityError SyslogFacility :=
  if i = 0 then .ok .LOG_KERN
  else if i = 1 then .ok .LOG_USER
  else if i = 2 then .ok .LOG_MAIL
  else if i = 3 then .ok .LOG_DAEMON
  else if i = 4 then .ok .LOG_AUTH
  else if i = 5 then .ok .LOG_SYSLOG
  else if i = 6 then .ok .LOG_LPR
  else if i = 7 then .ok .LOG_NEWS
  else if i = 8 then .ok .LOG_UUCP
  else if i = 9 then .ok .LOG_CRON
  else if i = 10 then .ok .LOG_AUTHPRIV
  else if i = 11 then .ok .LOG_FTP
  else if i = 12 then .ok .LOG_NTP
  else if i = 13 then .ok .LOG_AUDIT
  else if i = 14 then .ok .LOG_ALERT
  else if i = 15 then .ok .LOG_CLOCKD
  else if i = 16 then .ok .LOG_LOCAL0
  else if i = 17 then .ok .LOG_LOCAL1
  else if i = 18 then .ok .LOG_LOCAL2
  else if i = 19 then .ok .LOG_LOCAL3
  else if i = 20 then .ok .LOG_LOCAL4
  else if i = 21 then .ok .LOG_LOCAL5
  else if i = 22 then .ok .LOG_LOCAL6
  else if i = 23 then .ok .LOG_LOCAL7
  else .error .InvalidInteger

/-- From `src/facility.rs`: `SyslogFacility::from_int`, i.e.
`Self::try_from(i).ok()`. -/
def SyslogFacility.from_int (i : Int) : Option SyslogFacility :=
  (SyslogFacility.try_from i).toOption

/-- From `src/facility.rs`: `SyslogFacility::as_str`. -/
def SyslogFacility.as_str : SyslogFacility → String
  | .LOG_KERN => "kern"
  | .LOG_USER => "user"
  | .LOG_MAIL => "mail"
  | .LOG_DAEMON => "daemon"
  | .LOG_AUTH => "auth"
  | .LOG_SYSLOG => "syslog"
  | .LOG_LPR => "lpr"
  | .LOG_NEWS => "news"
  | .LOG_UUCP => "uucp"
  | .LOG_CRON => "cron"
  | .LOG_AUTHPRIV => "authpriv"
  | .LOG_FTP => "ftp"
  | .LOG_NTP => "ntp"
  | .LOG_AUDIT => "audit"
  | .LOG_ALERT => "alert"
  | .LOG_CLOCKD => "clockd"
  | .LOG_LOCAL0 => "local0"
  | .LOG_LOCAL1 => "local1"
  | .LOG_LOCAL2 => "local2"
  | .LOG_LOCAL3 => "local3"
  | .LOG_LOCAL4 => "local4"
  | .LOG_LOCAL5 => "local5"
  | .LOG_LOCAL6 => "local6"
  | .LOG_LOCAL7 => "local7"

/-- From `src/facility.rs`: `SyslogFacility::from_str` (a match on the 24
canonical names, else `Err(ParseErr::BadFacilityInPri)`). -/
def SyslogFacility.from_str (facility : String) : Except ParseErr SyslogFacility :=
  if facility = "kern" then .ok .LOG_KERN
  else if facility = "user" then .ok .LOG_USER
  else if facility = "mail" then .ok .LOG_MAIL
  else if facility = "daemon" then .ok .LOG_DAEMON
  else if facility = "auth" then .ok .LOG_AUTH
  else if facility = "syslog" then .ok .LOG_SYSLOG
  else if facility = "lpr" then .ok .LOG_LPR
  else if facility = "news" then .ok .LOG_NEWS
  else if facility = "uucp" then .ok .LOG_UUCP
  else if facility = "cron" then .ok .LOG_CRON
  else if facility = "authpriv" then .ok .LOG_AUTHPRIV
  else if facility = "ftp" then .ok .LOG_FTP
  else if facility = "ntp" then .ok .LOG_NTP
  else if facility = "audit" then .ok .LOG_AUDIT
  else if facility = "alert" then .ok .LOG_ALERT
  else if facility = "clockd" then .ok .LOG_CLOCKD
  else if facility = "local0" then .ok .LOG_LOCAL0
  else if facility = "local1" then .ok .LOG_LOCAL1
  else if facility = "local2" then .ok .LOG_LOCAL2
  else if facility = "local3" then .ok .LOG_LOCAL3
  else if facility = "local4" then .ok .LOG_LOCAL4
  else if facility = "local5" then .ok .LOG_LOCAL5
  else if facility = "local6" then .ok .LOG_LOCAL6
  else if facility = "local7" then .ok .LOG_LOCAL7
  else .error .BadFacilityInPri

/-! ## ProcId (`src/message.rs`) -/

/-- Lower bound of Rust's `i32` (`pid_t = i32`). -/
def i32Min : Int := -(2 ^ 31)

/-- Upper bound (inclusive) of Rust's `i32`. -/
def i32Max : Int := 2 ^ 31 - 1

/-- From `src/message.rs`: `enum ProcId { PID(pid_t), Name(String) }`.
`pid_t = i32` is embedded as `Int`; values produced by the crate always
lie in `[i32Min, i32Max]`, which appears as an explicit hypothesis where
it matters. -/
inductive ProcId
  | PID (p : Int)
  | Name (n : String)
  deriving DecidableEq, Repr

/-- From `src/message.rs`: `impl PartialOrd for ProcId`.  Two `PID`s
compare as integers, two `Name`s compare as strings, and a mixed pair is
incomparable (`None`).  (The Rust method is called `partial_cmp`.) -/
def ProcId.cmpOpt : ProcId → ProcId → Option Ordering
  | .PID s_p, .PID o_p => some (compare s_p o_p)
  | .Name s_n, .Name o_n => some (compare s_n o_n)
  | _, _ => none

/-- `-2^31 <= p <= 2^31 - 1` for the payload of a `PID`; `Name`s are
unconstrained.  This is the `pid_t = i32` range invariant. -/
def ProcId.wf : ProcId → Prop
  | .PID p => i32Min ≤ p ∧ p ≤ i32Max
  | .Name _ => True

instance : DecidablePred ProcId.wf := by
  intro p
  cases p with
  | PID p => exact inferInstanceAs (Decidable (_ ∧ _))
  | Name n => exact inferInstanceAs (Decidable True)

/-! ## Association lists standing in for `BTreeMap`

Only `get`, `insert`, `len` and `is_empty` of `BTreeMap` are observable in
the claims; an association list with replace-or-append insertion has the
same observable behaviour (under `BTreeMap`'s distinct-keys invariant,
stated as `alistNodup` where needed). -/

/-- `BTreeMap::get`: first value bound to the key, if any. -/
def alistGet {α : Type} (k : String) : List (String × α) → Option α
  | [] => none
  | (k', v) :: rest => if k' = k then some v else alistGet k rest

/-- `BTreeMap::insert`: replace the value at an existing key, else add the
binding (position among distinct keys is not observed by any claim). -/
def alistInsert {α : Type} (k : String) (v : α) : List (String × α) → List (String × α)
  | [] => [(k, v)]
  | (k', v') :: rest =>
    if k' = k then (k, v) :: rest else (k', v') :: alistInsert k v rest

/-- The keys of the list are pairwise distinct — `BTreeMap`'s internal
invariant. -/
def alistNodup {α : Type} (l : List (String × α)) : Prop :=
  (l.map Prod.fst).Nodup

instance {α : Type} (l : List (String × α)) : Decidable (alistNodup l) :=
  inferInstanceAs (Decidable (l.map Prod.fst).Nodup)

/-- From `src/message.rs`: `type StructuredDataElement = BTreeMap<SDParamIDType, SDParamValueType>`. -/
abbrev StructuredDataElement := List (String × String)

/-- From `src/message.rs`: `StructuredData` wraps a
`BTreeMap<SDIDType, StructuredDataElement>`. -/
structure StructuredData where
  elements : List (String × StructuredDataElement)
  deriving DecidableEq

/-- From `src/message.rs`: `StructuredData::new_empty`. -/
def StructuredData.new_empty : StructuredData :=
  ⟨[]⟩

/-- From `src/message.rs`: `StructuredData::entry` — the parameter map for
`sd_id`, a fresh empty map if absent (the source returns it as a mutable
reference; mutation through it is captured by `insert_tuple`). -/
def StructuredData.entry (sd : StructuredData) (sd_id : String) : StructuredDataElement :=
  (alistGet sd_id sd.elements).getD []

/-- From `src/message.rs`: `StructuredData::insert_tuple`, i.e.
`self.entry(sd_id).insert(sd_param_id, sd_param_value)`. -/
def StructuredData.insert_tuple (sd : StructuredData)
    (sd_id sd_param_id sd_param_value : String) : StructuredData :=
  ⟨alistInsert sd_id (alistInsert sd_param_id sd_param_value (sd.entry sd_id))
    sd.elements⟩

/-- From `src/message.rs`: `StructuredData::find_tuple`. -/
def StructuredData.find_tuple (sd : StructuredData)
    (sd_id sd_param_id : String) : Option String :=
  match alistGet sd_id sd.elements with
  | some sub_map => alistGet sd_param_id sub_map
  | none => none

/-- From `src/message.rs`: `StructuredData::find_sdid`. -/
def StructuredData.find_sdid (sd : StructuredData) (sd_id : String) :
    Option StructuredDataElement :=
  alistGet sd_id sd.elements

/-- From `src/message.rs`: `StructuredData::len` — the number of distinct
`SD_ID`s. -/
def StructuredData.len (sd : StructuredData) : Nat :=
  sd.elements.length

/-- From `src/message.rs`: `StructuredData::is_empty`. -/
def StructuredData.is_empty (sd : StructuredData) : Bool :=
  sd.elements.isEmpty

/-- `BTreeMap`'s distinct-keys invariant at both levels of a
`StructuredData`. -/
def StructuredData.wf (sd : StructuredData) : Prop :=
  alistNodup sd.elements ∧ ∀ e ∈ sd.elements, alistNodup e.2

instance (sd : StructuredData) : Decidable sd.wf :=
  inferInstanceAs (Decidable (_ ∧ _))

/-! ## SyslogMessage (`src/message.rs`) -/

/-- From `src/message.rs`: the `SyslogMessage` record.  `version: i32` and
`timestamp: Option<i64>` are embedded as `Int`, `timestamp_nanos:
Option<u32>` as `Nat`. -/
structure SyslogMessage where
  severity : SyslogSeverity
  facility : SyslogFacility
  version : Int
  timestamp : Option Int
  timestamp_nanos : Option Nat
  hostname : Option String
  appname : Option String
  procid : Option ProcId
  msgid : Option String
  sd : StructuredData
  msg : String
  deriving DecidableEq

/-! ## The generic serialized form

The spec's "generic serialized form" (a structured document such as JSON)
is represented as a tree of nulls, integers, strings and string-keyed
maps.  The `Serialize`/`Deserialize` impls and visitors written out in
`src/message.rs`, `src/severity.rs` and `src/facility.rs` are embedded
directly; the derive-generated field-by-field handling of `SyslogMessage`
follows the contract of the spec (each field keyed by its name, absent
optionals as an explicit null). -/

inductive SerdeValue
  | nullV
  | intV (n : Int)
  | strV (s : String)
  | mapV (entries : List (String × SerdeValue))
  deriving Repr

/-- Decode-side error (the concrete error type of the external decoder is
irrelevant to the claims: only ok/error/panic is observed).  `custom`
stands for errors built with `E::custom(..)` in the visitors. -/
inductive DeError
  | invalidType
  | custom
  deriving DecidableEq, Repr

def i64Min : Int := -(2 ^ 63)

def i64Max : Int := 2 ^ 63 - 1

def u32Max : Nat := 2 ^ 32 - 1

/-- From `src/severity.rs`: `Serialize for SyslogSeverity` writes the
canonical name. -/
def SyslogSeverity.encode (s : SyslogSeverity) : SerdeValue :=
  .strV s.as_str

/-- From `src/severity.rs`: `SyslogSeverityVisitor` — a string is decoded
with `from_str`, whose error is turned into a custom decode error. -/
def severityDecode : SerdeValue → Except DeError SyslogSeverity
  | .strV v =>
    match SyslogSeverity.from_str v with
    | .ok s => .ok s
    | .error _ => .error .custom
  | _ => .error .invalidType

/-- From `src/facility.rs`: `Serialize for SyslogFacility`. -/
def SyslogFacility.encode (f : SyslogFacility) : SerdeValue :=
  .strV f.as_str

/-- From `src/facility.rs`: `SyslogFacilityVisitor`. -/
def facilityDecode : SerdeValue → Except DeError SyslogFacility
  | .strV v =>
    match SyslogFacility.from_str v with
    | .ok f => .ok f
    | .error _ => .error .custom
  | _ => .error .invalidType

/-- From `src/message.rs`: `Serialize for ProcId` — a `PID` is written as
a raw integer, a `Name` as raw text. -/
def ProcId.encode : ProcId → SerdeValue
  | .PID p => .intV p
  | .Name n => .strV n

/-- From `src/message.rs`: `ProcIDVisitor` driven by `deserialize_any` —
text becomes a `Name`, an integer becomes a `PID` after the `i32`
range check of `visit_i64` (out of range is an `E::custom` error). -/
def ProcId.decode : SerdeValue → Except DeError ProcId
  | .strV s => .ok (.Name s)
  | .intV n => if i32Min ≤ n ∧ n ≤ i32Max then .ok (.PID n) else .error .custom
  | _ => .error .invalidType

/-- An absent optional field encodes as an explicit null. -/
def optionEncode {α : Type} (enc : α → SerdeValue) : Option α → SerdeValue
  | none => .nullV
  | some a => enc a

/-- Null decodes to `none`; anything else is decoded by the payload
decoder. -/
def optionDecode {α : Type} (dec : SerdeValue → Except DeError α) :
    SerdeValue → Except DeError (Option α)
  | .nullV => .ok none
  | v => (dec v).map some

/-- An `i32` field decodes from an integer within `i32` range. -/
def i32Decode : SerdeValue → Except DeError Int
  | .intV n => if i32Min ≤ n ∧ n ≤ i32Max then .ok n else .error .invalidType
  | _ => .error .invalidType

/-- An `i64` field decodes from an integer within `i64` range. -/
def i64Decode : SerdeValue → Except DeError Int
  | .intV n => if i64Min ≤ n ∧ n ≤ i64Max then .ok n else .error .invalidType
  | _ => .error .invalidType

/-- A `u32` field decodes from an integer within `u32` range. -/
def u32Decode : SerdeValue → Except DeError Nat
  | .intV n => if 0 ≤ n ∧ n ≤ (u32Max : Int) then .ok n.toNat else .error .invalidType
  | _ => .error .invalidType

/-- A `String` field decodes from text. -/
def strDecode : SerdeValue → Except DeError String
  | .strV s => .ok s
  | _ => .error .invalidType

/-- Inner map of a structured-data element: parameter name → value. -/
def sdElementEncode (el : StructuredDataElement) : SerdeValue :=
  .mapV (el.map fun pv => (pv.1, .strV pv.2))

/-- From `src/message.rs`: `Serialize for StructuredData` writes
`elements` as a map of maps. -/
def StructuredData.encode (sd : StructuredData) : SerdeValue :=
  .mapV (sd.elements.map fun ke => (ke.1, sdElementEncode ke.2))

/-- Entry loop of the inner-map visitor: each value must be text, and the
pairs are inserted into a fresh map. -/
def sdParamDecodeEntries : List (String × SerdeValue) → StructuredDataElement →
    Except DeError StructuredDataElement
  | [], acc => .ok acc
  | (k, .strV v) :: rest, acc => sdParamDecodeEntries rest (alistInsert k v acc)
  | _, _ => .error .invalidType

/-- A structured-data element decodes from a map of strings. -/
def sdElementDecode : SerdeValue → Except DeError StructuredDataElement
  | .mapV ents => sdParamDecodeEntries ents []
  | _ => .error .invalidType

/-- From `src/message.rs`: the entry loop of `BtreeMapVisitor::visit_map`
(`while let Some((key, value)) = map.next_entry()? { btree.insert(key, value); }`). -/
def sdMapDecodeEntries : List (String × SerdeValue) →
    List (String × StructuredDataElement) →
    Except DeError (List (String × StructuredDataElement))
  | [], acc => .ok acc
  | (k, v) :: rest, acc =>
    match sdElementDecode v with
    | .ok el => sdMapDecodeEntries rest (alistInsert k el acc)
    | .error e => .error e

/-- `deserialize_map(BtreeMapVisitor)`: the input must be a map, and every
entry must decode as above. -/
def sdMapDecode : SerdeValue → Except DeError (List (String × StructuredDataElement))
  | .mapV ents => sdMapDecodeEntries ents []
  | _ => .error .invalidType

/-- From `src/message.rs`: `Deserialize for StructuredData` runs
`deserializer.deserialize_map(BtreeMapVisitor).unwrap()`.  The `unwrap`
turns any decode error into a crash of the calling program; `none` here
models that crash, while `some` is the value actually returned. -/
def StructuredData.deserializeModel (v : SerdeValue) : Option StructuredData :=
  match sdMapDecode v with
  | .ok elements => some ⟨elements⟩
  | .error _ => none

/-- Decode the field `name` of a field map with `dec`; a missing field is
a decode error. -/
def fieldDecode {α : Type} (fields : List (String × SerdeValue)) (name : String)
    (dec : SerdeValue → Except DeError α) : Except DeError α :=
  match alistGet name fields with
  | some v => dec v
  | none => .error .invalidType

/-- The derive-generated `Serialize` for `SyslogMessage`: one map entry
per field, in declaration order. -/
def SyslogMessage.encode (m : SyslogMessage) : SerdeValue :=
  .mapV
    [("severity", m.severity.encode),
     ("facility", m.facility.encode),
     ("version", .intV m.version),
     ("timestamp", optionEncode SerdeValue.intV m.timestamp),
     ("timestamp_nanos",
       optionEncode (fun n : Nat => .intV (n : Int)) m.timestamp_nanos),
     ("hostname", optionEncode SerdeValue.strV m.hostname),
     ("appname", optionEncode SerdeValue.strV m.appname),
     ("procid", optionEncode ProcId.encode m.procid),
     ("msgid", optionEncode SerdeValue.strV m.msgid),
     ("sd", m.sd.encode),
     ("msg", .strV m.msg)]

/-- The derive-generated `Deserialize` for `SyslogMessage`: each field is
decoded by its own deserializer; the `sd` field uses the crashing
`Deserialize for StructuredData`.  The result is `none` when that crash
is hit, `some (.error e)` on a reported decode error, `some (.ok m)` on
success. -/
def SyslogMessage.decode (v : SerdeValue) : Option (Except DeError SyslogMessage) :=
  match v with
  | .mapV fields =>
    match fieldDecode fields "severity" severityDecode with
    | .error e => some (.error e)
    | .ok severity =>
    match fieldDecode fields "facility" facilityDecode with
    | .error e => some (.error e)
    | .ok facility =>
    match fieldDecode fields "version" i32Decode with
    | .error e => some (.error e)
    | .ok version =>
    match fieldDecode fields "timestamp" (optionDecode i64Decode) with
    | .error e => some (.error e)
    | .ok timestamp =>
    match fieldDecode fields "timestamp_nanos" (optionDecode u32Decode) with
    | .error e => some (.error e)
    | .ok timestamp_nanos =>
    match fieldDecode fields "hostname" (optionDecode strDecode) with
    | .error e => some (.error e)
    | .ok hostname =>
    match fieldDecode fields "appname" (optionDecode strDecode) with
    | .error e => some (.error e)
    | .ok appname =>
    match fieldDecode fields "procid" (optionDecode ProcId.decode) with
    | .error e => some (.error e)
    | .ok procid =>
    match fieldDecode fields "msgid" (optionDecode strDecode) with
    | .error e => some (.error e)
    | .ok msgid =>
    match fieldDecode fields "sd" Except.ok with
    | .error e => some (.error e)
    | .ok sdv =>
    match StructuredData.deserializeModel sdv with
    | none => none
    | some sd =>
    match fieldDecode fields "msg" strDecode with
    | .error e => some (.error e)
    | .ok msg =>
      some (.ok ⟨severity, facility, version, timestamp, timestamp_nanos,
        hostname, appname, procid, msgid, sd, msg⟩)
  | _ => some (.error .invalidType)

/-- The machine-integer typing of the Rust record, as explicit range
invariants of the embedding, plus `BTreeMap`'s distinct-keys invariant:
every `SyslogMessage` the crate can hold satisfies this. -/
def SyslogMessage.wf (m : SyslogMessage) : Prop :=
  i32Min ≤ m.version ∧ m.version ≤ i32Max ∧
  (∀ t ∈ m.timestamp, i64Min ≤ t ∧ t ≤ i64Max) ∧
  (∀ n ∈ m.timestamp_nanos, n ≤ u32Max) ∧
  (∀ p ∈ m.procid, p.wf) ∧
  m.sd.wf

/-! ## The RFC 5424 grammar walk

`parser::parse_message` lives in `src/parser.rs`, which is not among the
sources at hand; the functions of this section are modelled from the
spec's grammar-parser design (single pass, strictly left to right,
fail-fast), over the input as a list of characters. -/

/-- Numeric value of a decimal digit character. -/
def digitVal (c : Char) : Nat :=
  c.toNat - '0'.toNat

/-- Value of a big-endian string of decimal digits. -/
def digitsToNat (ds : List Char) : Nat :=
  ds.foldl (fun a c => a * 10 + digitVal c) 0

/-- Longest prefix satisfying `p`, and the remainder. -/
def spanP (p : Char → Bool) : List Char → List Char × List Char
  | [] => ([], [])
  | c :: rest =>
    if p c then
      let (t, r) := spanP p rest
      (c :: t, r)
    else ([], c :: rest)

/-- Modelled from the spec: the PRI field of the missing
`src/parser.rs` — literal `<`, 1–3 decimal digits forming an integer in
0–191, literal `>`; anything else is a priority error. -/
def parsePri : List Char → Except ParseErr (Nat × List Char)
  | '<' :: rest =>
    let (ds, rest') := spanP Char.isDigit rest
    if 1 ≤ ds.length ∧ ds.length ≤ 3 then
      match rest' with
      | '>' :: r =>
        let v := digitsToNat ds
        if v ≤ 191 then .ok (v, r) else .error .BadPriority
      | _ => .error .BadPriority
    else .error .BadPriority
  | _ => .error .BadPriority

/-- Modelled from the spec: the VERSION field of the missing
`src/parser.rs` — one or more decimal digits interpreted as a positive
integer, followed by exactly one space. -/
def parseVersion (cs : List Char) : Except ParseErr (Nat × List Char) :=
  let (ds, rest) := spanP Char.isDigit cs
  if 1 ≤ ds.length then
    let v := digitsToNat ds
    if 1 ≤ v then
      match rest with
      | ' ' :: r => .ok (v, r)
      | [] => .error .UnexpectedEndOfInput
      | _ => .error .BadVersion
    else .error .BadVersion
  else .error .BadVersion

/-- Modelled from the spec: a whitespace-delimited, non-empty header
token of the missing `src/parser.rs`. -/
def parseToken (cs : List Char) : Except ParseErr (List Char × List Char) :=
  let (t, rest) := spanP (fun c => c != ' ') cs
  if t.length = 0 then .error .UnexpectedEndOfInput else .ok (t, rest)

/-- Modelled from the spec: the mandatory single-space separator between
header fields of the missing `src/parser.rs`. -/
def expectSp : List Char → Except ParseErr (List Char)
  | ' ' :: rest => .ok rest
  | _ => .error .UnexpectedEndOfInput

/-- Exactly `n` decimal digits read as a number, with the remainder. -/
def readFixedNat (n : Nat) (cs : List Char) : Option (Nat × List Char) :=
  let ds := cs.take n
  if ds.length = n ∧ ds.all Char.isDigit then some (digitsToNat ds, cs.drop n)
  else none

/-- One expected literal character. -/
def expectChar (c : Char) : List Char → Option (List Char)
  | c' :: rest => if c' = c then some rest else none
  | [] => none

/-- Civil date to days since the UTC epoch (proleptic Gregorian
calendar), with truncating integer division as in the source language. -/
def daysFromCivil (y m d : Int) : Int :=
  let y' := if m ≤ 2 then y - 1 else y
  let era := (if 0 ≤ y' then y' else y' - 399) / 400
  let yoe := y' - era * 400
  let mp := (m + 9) % 12
  let doy := (153 * mp + 2) / 5 + d - 1
  let doe := yoe * 365 + yoe / 4 - yoe / 100 + doy
  era * 146097 + doe - 719468

/-- Modelled from the spec: the timezone of the missing `src/parser.rs` —
either `Z` or a signed `hh:mm` offset, returned in seconds. -/
def parseOffset : List Char → Option Int
  | ['Z'] => some 0
  | c :: rest =>
    if c = '+' ∨ c = '-' then
      match readFixedNat 2 rest with
      | some (oh, r1) =>
        match expectChar ':' r1 with
        | some r2 =>
          match readFixedNat 2 r2 with
          | some (om, r3) =>
            if r3 = [] ∧ oh ≤ 23 ∧ om ≤ 59 then
              let secs : Int := oh * 3600 + om * 60
              some (if c = '-' then -secs else secs)
            else none
          | none => none
        | none => none
      | none => none
    else none
  | _ => none

/-- Modelled from the spec: the `YYYY-MM-DD` date part of the TIMESTAMP
of the missing `src/parser.rs`. -/
def parseDate (cs : List Char) : Option (Nat × Nat × Nat × List Char) :=
  (readFixedNat 4 cs).bind fun y4 =>
  (expectChar '-' y4.2).bind fun r1 =>
  (readFixedNat 2 r1).bind fun mo2 =>
  (expectChar '-' mo2.2).bind fun r2 =>
  (readFixedNat 2 r2).bind fun d2 =>
  some (y4.1, mo2.1, d2.1, d2.2)

/-- Modelled from the spec: the `hh:mm:ss` time-of-day part of the
TIMESTAMP of the missing `src/parser.rs`. -/
def parseTimeOfDay (cs : List Char) : Option (Nat × Nat × Nat × List Char) :=
  (readFixedNat 2 cs).bind fun hh2 =>
  (expectChar ':' hh2.2).bind fun r4 =>
  (readFixedNat 2 r4).bind fun mi2 =>
  (expectChar ':' mi2.2).bind fun r5 =>
  (readFixedNat 2 r5).bind fun ss2 =>
  some (hh2.1, mi2.1, ss2.1, ss2.2)

/-- Modelled from the spec: the optional fractional-seconds component of
the missing `src/parser.rs` — `.` plus 1–6 digits, scaled into
nanoseconds; absent is fine, a malformed fraction is not. -/
def parseFrac (cs : List Char) : Option (Option Nat × List Char) :=
  match cs with
  | '.' :: rest =>
    let ds := (spanP Char.isDigit rest).1
    if 1 ≤ ds.length ∧ ds.length ≤ 6 then
      some (some (digitsToNat ds * 10 ^ (9 - ds.length)), (spanP Char.isDigit rest).2)
    else none
  | other => some (none, other)

/-- Modelled from the spec: the full TIMESTAMP of the missing
`src/parser.rs` — `YYYY-MM-DDThh:mm:ss`, an optional fraction scaled into
nanoseconds, then `Z` or a signed `hh:mm` offset; the wall-clock plus
offset is normalized to UTC epoch seconds, with the date/time component
ranges validated. -/
def parseTimestampFull (cs : List Char) : Option (Int × Option Nat) :=
  (parseDate cs).bind fun ymd =>
  (expectChar 'T' ymd.2.2.2).bind fun r =>
  (parseTimeOfDay r).bind fun hms =>
  (parseFrac hms.2.2.2).bind fun fr =>
  (parseOffset fr.2).bind fun off =>
  if 1 ≤ ymd.2.1 ∧ ymd.2.1 ≤ 12 ∧ 1 ≤ ymd.2.2.1 ∧ ymd.2.2.1 ≤ 31 ∧
      hms.1 ≤ 23 ∧ hms.2.1 ≤ 59 ∧ hms.2.2.1 ≤ 59 then
    some (daysFromCivil ymd.1 ymd.2.1 ymd.2.2.1 * 86400 +
      (hms.1 * 3600 + hms.2.1 * 60 + hms.2.2.1 : Nat) - off, fr.1)
  else none

/-- Modelled from the spec: the PROCID token of a `-`/digits-only signed
integer form of the missing `src/parser.rs` — an optional sign followed
by one or more digits. -/
def parseIntToken : List Char → Option Int
  | '-' :: ds =>
    if 1 ≤ ds.length ∧ ds.all Char.isDigit then some (-(digitsToNat ds : Int))
    else none
  | '+' :: ds =>
    if 1 ≤ ds.length ∧ ds.all Char.isDigit then some (digitsToNat ds)
    else none
  | ds =>
    if 1 ≤ ds.length ∧ ds.all Char.isDigit then some (digitsToNat ds)
    else none

/-- Modelled from the spec: PROCID classification of the missing
`src/parser.rs` — a token that reads as a signed integer without `i32`
overflow is a `PID`, anything else a `Name`. -/
def classifyProcId (tok : List Char) : ProcId :=
  match parseIntToken tok with
  | some n => if i32Min ≤ n ∧ n ≤ i32Max then .PID n else .Name (String.mk tok)
  | none => .Name (String.mk tok)

/-- Characters allowed in an SD-ID or a parameter name: anything but
`=`, space, `]`, `"`. -/
def isSdNameChar (c : Char) : Bool :=
  !(c == '=' || c == ' ' || c == ']' || c == '"')

/-- Modelled from the spec: the quoted parameter value of the missing
`src/parser.rs` — characters up to the closing quote, where backslash
may escape only `"`, `\` and `]`; the escape is unescaped to the literal
character, any other escape is illegal. -/
def scanSdValue : List Char → Option (List Char × List Char)
  | [] => none
  | '"' :: rest => some ([], rest)
  | '\\' :: c :: rest =>
    if c = '"' ∨ c = '\\' ∨ c = ']' then
      match scanSdValue rest with
      | some (v, r) => some (c :: v, r)
      | none => none
    else none
  | c :: rest =>
    match scanSdValue rest with
    | some (v, r) => some (c :: v, r)
    | none => none

/-- Inserting the (possibly fresh, possibly empty) parameter map of an
SD-ID, i.e. the effect of `StructuredData::entry` alone. -/
def StructuredData.entryInsert (sd : StructuredData) (sd_id : String) : StructuredData :=
  ⟨alistInsert sd_id (sd.entry sd_id) sd.elements⟩

/-- Modelled from the spec: the `SP SD-PARAM` list and closing `]` of one
element of the missing `src/parser.rs`; each parameter is
`name="value"` and goes through `insert_tuple` (last write wins). -/
def parseSdParams : Nat → List Char → StructuredData → String →
    Except ParseErr (StructuredData × List Char)
  | _, ']' :: rest, sd, _ => .ok (sd, rest)
  | fuel + 1, ' ' :: rest, sd, sd_id =>
    let (name, r1) := spanP isSdNameChar rest
    if name.length = 0 then .error .BadStructuredData
    else
      match r1 with
      | '=' :: '"' :: r2 =>
        match scanSdValue r2 with
        | some (v, r3) =>
          parseSdParams fuel r3
            (sd.insert_tuple sd_id (String.mk name) (String.mk v)) sd_id
        | none => .error .BadStructuredData
      | _ => .error .BadStructuredData
  | _, [], _, _ => .error .UnexpectedEndOfInput
  | _, _, _, _ => .error .BadStructuredData

/-- Modelled from the spec: the bracketed element list of the missing
`src/parser.rs` — one or more `[` SD-ID ( SP SD-PARAM )* `]`, elements
sharing an SD-ID merging into one entry. -/
def parseSdElements : Nat → List Char → StructuredData →
    Except ParseErr (StructuredData × List Char)
  | fuel + 1, '[' :: rest, sd =>
    let (sid, r1) := spanP isSdNameChar rest
    if sid.length = 0 then .error .BadStructuredData
    else
      match parseSdParams fuel r1 (sd.entryInsert (String.mk sid)) (String.mk sid) with
      | .ok (sd', rest') =>
        match rest' with
        | '[' :: r2 => parseSdElements fuel ('[' :: r2) sd'
        | _ => .ok (sd', rest')
      | .error e => .error e
  | _, [], _ => .error .UnexpectedEndOfInput
  | _, _, _ => .error .BadStructuredData

/-- Modelled from the spec: the STRUCTURED-DATA field of the missing
`src/parser.rs` — NILVALUE or one or more bracketed elements. -/
def parseSd (cs : List Char) : Except ParseErr (StructuredData × List Char) :=
  match cs with
  | '-' :: rest => .ok (StructuredData.new_empty, rest)
  | '[' :: _ => parseSdElements (cs.length + 1) cs StructuredData.new_empty
  | [] => .error .UnexpectedEndOfInput
  | _ => .error .BadStructuredData

/-- Modelled from the spec: `parser::parse_message` of the missing
`src/parser.rs` — the single-pass, fail-fast grammar walk over PRI,
VERSION, TIMESTAMP, HOSTNAME, APP-NAME, PROCID, MSGID, STRUCTURED-DATA
and MSG, producing a fully-populated `SyslogMessage` or the first
error. -/
def parse_message_chars (cs : List Char) : Except ParseErr SyslogMessage :=
  match parsePri cs with
  | .error e => .error e
  | .ok (pri, cs) =>
    match SyslogFacility.from_int ((pri : Int) / 8) with
    | none => .error .BadFacilityInPri
    | some facility =>
    match SyslogSeverity.from_int ((pri : Int) % 8) with
    | none => .error .BadSeverityInPri
    | some severity =>
    match parseVersion cs with
    | .error e => .error e
    | .ok (version, cs) =>
    match parseToken cs with
    | .error e => .error e
    | .ok (tsTok, cs) =>
    match (if tsTok = ['-'] then
        Except.ok ((none : Option Int), (none : Option Nat))
      else
        match parseTimestampFull tsTok with
        | some (t, n) => Except.ok (some t, n)
        | none => Except.error ParseErr.BadTimestamp) with
    | .error e => .error e
    | .ok (timestamp, timestamp_nanos) =>
    match expectSp cs with
    | .error e => .error e
    | .ok cs =>
    match parseToken cs with
    | .error e => .error e
    | .ok (hTok, cs) =>
    let hostname := if hTok = ['-'] then none else some (String.mk hTok)
    match expectSp cs with
    | .error e => .error e
    | .ok cs =>
    match parseToken cs with
    | .error e => .error e
    | .ok (aTok, cs) =>
    let appname := if aTok = ['-'] then none else some (String.mk aTok)
    match expectSp cs with
    | .error e => .error e
    | .ok cs =>
    match parseToken cs with
    | .error e => .error e
    | .ok (pTok, cs) =>
    let procid := if pTok = ['-'] then none else some (classifyProcId pTok)
    match expectSp cs with
    | .error e => .error e
    | .ok cs =>
    match parseToken cs with
    | .error e => .error e
    | .ok (mTok, cs) =>
    let msgid := if mTok = ['-'] then none else some (String.mk mTok)
    match expectSp cs with
    | .error e => .error e
    | .ok cs =>
    match parseSd cs with
    | .error e => .error e
    | .ok (sd, cs) =>
    match cs with
    | [] =>
      .ok ⟨severity, facility, (version : Int), timestamp, timestamp_nanos,
        hostname, appname, procid, msgid, sd, ""⟩
    | ' ' :: rest =>
      .ok ⟨severity, facility, (version : Int), timestamp, timestamp_nanos,
        hostname, appname, procid, msgid, sd, String.mk rest⟩
    | _ => .error .BadStructuredData

/-- Modelled from the spec: `parse_message` on a string input
(`SyslogMessage::from_str` in `src/message.rs` just calls it). -/
def parse_message (s : String) : Except ParseErr SyslogMessage :=
  parse_message_chars s.data

/-! ## Concrete test inputs used by the theorems below -/

/-- The decimal digit `d` as a character. -/
def priDigitChar (d : Nat) : Char :=
  Char.ofNat (48 + d)

/-- The 1–3 decimal digits of `n < 1000`, most significant first. -/
def priDigits (n : Nat) : List Char :=
  if n < 10 then [priDigitChar n]
  else if n < 100 then [priDigitChar (n / 10), priDigitChar (n % 10)]
  else [priDigitChar (n / 100), priDigitChar (n / 10 % 10), priDigitChar (n % 10)]

/-- A minimal well-formed message carrying the PRI value `pri`: every
other field is NILVALUE and the body is empty. -/
def mkPriMessage (pri : Nat) : List Char :=
  '<' :: (priDigits pri ++ '>' :: "1 - - - - - -".data)

instance {ε α : Type} [DecidableEq ε] [DecidableEq α] : DecidableEq (Except ε α) :=
  fun a b =>
    match a, b with
    | .ok x, .ok y =>
      if h : x = y then isTrue (by rw [h]) else isFalse (by simp [h])
    | .error x, .error y =>
      if h : x = y then isTrue (by rw [h]) else isFalse (by simp [h])
    | .ok _, .error _ => isFalse (by simp)
    | .error _, .ok _ => isFalse (by simp)

/-- A concrete message exercising every field, used to witness the
round-trip theorem. -/
def sampleMessage : SyslogMessage :=
  ⟨.SEV_INFO, .LOG_USER, 1, some 1501060655, some 869952000,
    some "my_hostname", some "custom_appname", some (.PID 5678),
    some "some_unique_msgid", ⟨[("foo", [("bar", "baz"), ("baz", "bar")]),
      ("faa", [("bar", "baz")])]⟩, "Some other message"⟩

/-- A well-formed document for the structured-data decoder: a map whose
values are maps of strings. -/
def WfSdDoc : SerdeValue → Prop
  | .mapV ents =>
    ∀ kv ∈ ents, ∃ inner, kv.2 = SerdeValue.mapV inner ∧
      ∀ pv ∈ inner, ∃ s, pv.2 = SerdeValue.strV s
  | _ => False

/-! ## Association-list lemmas -/

theorem alistGet_insert_self {α : Type} (k : String) (v : α)
    (l : List (String × α)) : alistGet k (alistInsert k v l) = some v := by
  induction l with
  | nil => simp [alistInsert, alistGet]
  | cons hd tl ih =>
    by_cases h : hd.1 = k
    · simp [alistInsert, alistGet, h]
    · simpa [alistInsert, alistGet, h] using ih

theorem alistGet_insert_ne {α : Type} (k k' : String) (v : α)
    (l : List (String × α)) (h : k' ≠ k) :
    alistGet k (alistInsert k' v l) = alistGet k l := by
  induction l with
  | nil => simp [alistInsert, alistGet, h]
  | cons hd tl ih =>
    by_cases h1 : hd.1 = k'
    · simp [alistInsert, alistGet, h1, h]
    · by_cases h2 : hd.1 = k <;>
        simp [alistInsert, alistGet, h1, h2, Ne.symm h, ih]

theorem alistGet_eq_none_iff {α : Type} (k : String) (l : List (String × α)) :
    alistGet k l = none ↔ k ∉ l.map Prod.fst := by
  induction l with
  | nil => simp [alistGet]
  | cons hd tl ih =>
    by_cases h : hd.1 = k
    · simp [alistGet, h]
    · have h' : ¬k = hd.1 := fun hk => h hk.symm
      simp [alistGet, h, h', ih]

theorem find_tuple_insert_tuple (sd : StructuredData) (s p q v : String) :
    (sd.insert_tuple s p v).find_tuple s q
      = alistGet q (alistInsert p v (sd.entry s)) := by
  simp [StructuredData.insert_tuple, StructuredData.find_tuple,
    alistGet_insert_self]

theorem entry_insert_tuple (sd : StructuredData) (s p v : String) :
    (sd.insert_tuple s p v).entry s = alistInsert p v (sd.entry s) := by
  simp [StructuredData.entry, StructuredData.insert_tuple, alistGet_insert_self]

/-! ## Claim theorems -/

/-- C3: re-inserting an existing (SD-ID, param-name) pair overwrites the
prior value: after `insert_tuple sd_id param v1` and then
`insert_tuple sd_id param v2`, `find_tuple sd_id param` yields `v2`
(last write wins), for every starting `StructuredData`. -/
theorem insert_tuple_last_write_wins (sd : StructuredData)
    (sd_id param v1 v2 : String) :
    ((sd.insert_tuple sd_id param v1).insert_tuple sd_id param v2).find_tuple
      sd_id param = some v2 := by
  rw [find_tuple_insert_tuple, alistGet_insert_self]

/-- C4: two insertions under one SD-ID with distinct parameter names both
remain retrievable, and merging them under a single fresh SD-ID yields a
`StructuredData` of `len` 1 (len counts distinct SD-IDs). -/
theorem insert_tuple_distinct_params (sd : StructuredData)
    (sd_id p1 p2 v1 v2 : String) (h : p1 ≠ p2) :
    ((sd.insert_tuple sd_id p1 v1).insert_tuple sd_id p2 v2).find_tuple
      sd_id p1 = some v1 ∧
    ((sd.insert_tuple sd_id p1 v1).insert_tuple sd_id p2 v2).find_tuple
      sd_id p2 = some v2 ∧
    ((StructuredData.new_empty.insert_tuple sd_id p1 v1).insert_tuple
      sd_id p2 v2).len = 1 := by
  refine ⟨?_, ?_, ?_⟩
  · rw [find_tuple_insert_tuple, alistGet_insert_ne _ _ _ _ (Ne.symm h),
      entry_insert_tuple, alistGet_insert_self]
  · rw [find_tuple_insert_tuple, alistGet_insert_self]
  · simp [StructuredData.insert_tuple, StructuredData.entry,
      StructuredData.new_empty, StructuredData.len, alistInsert, alistGet]

/-- C4 witness: concrete instantiation with distinct parameter names. -/
theorem insert_tuple_distinct_params_witness :
    ((StructuredData.new_empty.insert_tuple "id" "bar" "v1").insert_tuple
      "id" "qux" "v2").find_tuple "id" "bar" = some "v1" ∧
    ((StructuredData.new_empty.insert_tuple "id" "bar" "v1").insert_tuple
      "id" "qux" "v2").find_tuple "id" "qux" = some "v2" ∧
    ((StructuredData.new_empty.insert_tuple "id" "bar" "v1").insert_tuple
      "id" "qux" "v2").len = 1 :=
  insert_tuple_distinct_params StructuredData.new_empty "id" "bar" "qux"
    "v1" "v2" (by decide)

/-- C5: `ProcId` ordering is defined only within a variant — a `PID` and a
`Name` are incomparable (`none`), two `PID`s compare as the integers, two
`Name`s as the strings; equality is structural. -/
theorem procid_cmp_variant_restricted (p1 p2 : Int) (n1 n2 : String) :
    ProcId.cmpOpt (.PID p1) (.Name n1) = none ∧
    ProcId.cmpOpt (.Name n1) (.PID p1) = none ∧
    ProcId.cmpOpt (.PID p1) (.PID p2) = some (compare p1 p2) ∧
    ProcId.cmpOpt (.Name n1) (.Name n2) = some (compare n1 n2) ∧
    (ProcId.PID p1 = ProcId.PID p2 ↔ p1 = p2) ∧
    (ProcId.Name n1 = ProcId.Name n2 ↔ n1 = n2) ∧
    ProcId.PID p1 ≠ ProcId.Name n1 :=
  ⟨rfl, rfl, rfl, rfl, by simp, by simp, by simp⟩

/-- C8: `StructuredData` lookups signal absence with `none`, never an
error: `find_sdid` is `none` exactly when the SD-ID is absent, and
`find_tuple` is `none` exactly when the SD-ID is absent or present
without the parameter. -/
theorem structured_data_absence (sd : StructuredData) (s p : String) :
    (sd.find_sdid s = none ↔ s ∉ sd.elements.map Prod.fst) ∧
    (sd.find_tuple s p = none ↔
      (sd.find_sdid s = none ∨
        ∃ el, sd.find_sdid s = some el ∧ p ∉ el.map Prod.fst)) := by
  constructor
  · simpa [StructuredData.find_sdid] using alistGet_eq_none_iff s sd.elements
  · simp only [StructuredData.find_tuple, StructuredData.find_sdid]
    cases hget : alistGet s sd.elements with
    | none => simp
    | some el => simp [alistGet_eq_none_iff]

/-- C9: the derived total order on `SyslogSeverity` and `SyslogFacility`
agrees with the numeric (discriminant) value. -/
theorem enum_order_agrees_with_numeric :
    (∀ a b : SyslogSeverity, a.derivedLe b ↔ a.toInt ≤ b.toInt) ∧
    (∀ a b : SyslogFacility, a.derivedLe b ↔ a.toInt ≤ b.toInt) := by
  constructor <;> (intro a b; cases a <;> cases b <;> decide)

/-- C6: numeric-to-enum conversion is exactly range-guarded — `try_from`
succeeds with the value of matching discriminant exactly on 0–23
(facility) and 0–7 (severity), and fails with `InvalidInteger`
otherwise. -/
theorem try_from_range_guarded (i : Int) :
    ((0 ≤ i ∧ i ≤ 23) →
      (SyslogFacility.try_from i).map SyslogFacility.toInt = .ok i) ∧
    (¬(0 ≤ i ∧ i ≤ 23) →
      SyslogFacility.try_from i = .error .InvalidInteger) ∧
    ((0 ≤ i ∧ i ≤ 7) →
      (SyslogSeverity.try_from i).map SyslogSeverity.toInt = .ok i) ∧
    (¬(0 ≤ i ∧ i ≤ 7) →
      SyslogSeverity.try_from i = .error .InvalidInteger) := by
  refine ⟨?_, ?_, ?_, ?_⟩
  · rintro ⟨h0, h1⟩
    interval_cases i <;> rfl
  · intro h
    unfold SyslogFacility.try_from
    repeat rw [if_neg (by omega)]
  · rintro ⟨h0, h1⟩
    interval_cases i <;> rfl
  · intro h
    unfold SyslogSeverity.try_from
    repeat rw [if_neg (by omega)]

/-- C6 witness: in-range and out-of-range instantiations. -/
theorem try_from_range_guarded_witness :
    (SyslogFacility.try_from 5).map SyslogFacility.toInt = .ok 5 ∧
    SyslogFacility.try_from 99 = .error .InvalidInteger ∧
    (SyslogSeverity.try_from 5).map SyslogSeverity.toInt = .ok 5 ∧
    SyslogSeverity.try_from 99 = .error .InvalidInteger :=
  ⟨(try_from_range_guarded 5).1 (by omega),
   (try_from_range_guarded 99).2.1 (by omega),
   (try_from_range_guarded 5).2.2.1 (by omega),
   (try_from_range_guarded 99).2.2.2 (by omega)⟩

theorem severity_from_str_as_str (s : SyslogSeverity) :
    SyslogSeverity.from_str s.as_str = .ok s := by
  cases s <;> rfl

theorem facility_from_str_as_str (f : SyslogFacility) :
    SyslogFacility.from_str f.as_str = .ok f := by
  cases f <;> rfl

/-- C7: name conversions round-trip over the closed enumerations
(`from_str (as_str x) = Ok x`, with `as_str` total by construction), and
`from_str` on any non-canonical string fails with `BadSeverityInPri` /
`BadFacilityInPri`. -/
theorem name_conversions_roundtrip :
    (∀ s : SyslogSeverity, SyslogSeverity.from_str s.as_str = .ok s) ∧
    (∀ f : SyslogFacility, SyslogFacility.from_str f.as_str = .ok f) ∧
    (∀ v : String, (∀ s : SyslogSeverity, v ≠ s.as_str) →
      SyslogSeverity.from_str v = .error .BadSeverityInPri) ∧
    (∀ v : String, (∀ f : SyslogFacility, v ≠ f.as_str) →
      SyslogFacility.from_str v = .error .BadFacilityInPri) := by
  refine ⟨severity_from_str_as_str, facility_from_str_as_str, ?_, ?_⟩
  · intro v h
    have e0 : v ≠ "emerg" := h .SEV_EMERG
    have e1 : v ≠ "alert" := h .SEV_ALERT
    have e2 : v ≠ "crit" := h .SEV_CRIT
    have e3 : v ≠ "err" := h .SEV_ERR
    have e4 : v ≠ "warning" := h .SEV_WARNING
    have e5 : v ≠ "notice" := h .SEV_NOTICE
    have e6 : v ≠ "info" := h .SEV_INFO
    have e7 : v ≠ "debug" := h .SEV_DEBUG
    simp [SyslogSeverity.from_str, e0, e1, e2, e3, e4, e5, e6, e7]
  · intro v h
    have g0 : v ≠ "kern" := h .LOG_KERN
    have g1 : v ≠ "user" := h .LOG_USER
    have g2 : v ≠ "mail" := h .LOG_MAIL
    have g3 : v ≠ "daemon" := h .LOG_DAEMON
    have g4 : v ≠ "auth" := h .LOG_AUTH
    have g5 : v ≠ "syslog" := h .LOG_SYSLOG
    have g6 : v ≠ "lpr" := h .LOG_LPR
    have g7 : v ≠ "news" := h .LOG_NEWS
    have g8 : v ≠ "uucp" := h .LOG_UUCP
    have g9 : v ≠ "cron" := h .LOG_CRON
    have g10 : v ≠ "authpriv" := h .LOG_AUTHPRIV
    have g11 : v ≠ "ftp" := h .LOG_FTP
    have g12 : v ≠ "ntp" := h .LOG_NTP
    have g13 : v ≠ "audit" := h .LOG_AUDIT
    have g14 : v ≠ "alert" := h .LOG_ALERT
    have g15 : v ≠ "clockd" := h .LOG_CLOCKD
    have g16 : v ≠ "local0" := h .LOG_LOCAL0
    have g17 : v ≠ "local1" := h .LOG_LOCAL1
    have g18 : v ≠ "local2" := h .LOG_LOCAL2
    have g19 : v ≠ "local3" := h .LOG_LOCAL3
    have g20 : v ≠ "local4" := h .LOG_LOCAL4
    have g21 : v ≠ "local5" := h .LOG_LOCAL5
    have g22 : v ≠ "local6" := h .LOG_LOCAL6
    have g23 : v ≠ "local7" := h .LOG_LOCAL7
    simp [SyslogFacility.from_str, g0, g1, g2, g3, g4, g5, g6, g7, g8, g9,
      g10, g11, g12, g13, g14, g15, g16, g17, g18, g19, g20, g21, g22, g23]

theorem severityDecode_encode (s : SyslogSeverity) :
    severityDecode s.encode = .ok s := by
  simp [SyslogSeverity.encode, severityDecode, severity_from_str_as_str]

theorem facilityDecode_encode (f : SyslogFacility) :
    facilityDecode f.encode = .ok f := by
  simp [SyslogFacility.encode, facilityDecode, facility_from_str_as_str]

theorem procIdDecode_encode (p : ProcId) (h : p.wf) :
    ProcId.decode p.encode = .ok p := by
  cases p with
  | PID n =>
    have h' : i32Min ≤ n ∧ n ≤ i32Max := h
    simp [ProcId.encode, ProcId.decode, h'.1, h'.2]
  | Name n => rfl

theorem optionDecode_encode {α : Type} (dec : SerdeValue → Except DeError α)
    (enc : α → SerdeValue) (o : Option α)
    (hnn : ∀ a ∈ o, enc a ≠ .nullV) (hd : ∀ a ∈ o, dec (enc a) = .ok a) :
    optionDecode dec (optionEncode enc o) = .ok o := by
  cases o with
  | none => rfl
  | some a =>
    have h1 := hnn a rfl
    have h2 := hd a rfl
    cases henc : enc a with
    | nullV => exact absurd henc h1
    | intV n =>
      rw [henc] at h2
      simp [optionEncode, optionDecode, henc, h2, Except.map]
    | strV s =>
      rw [henc] at h2
      simp [optionEncode, optionDecode, henc, h2, Except.map]
    | mapV l =>
      rw [henc] at h2
      simp [optionEncode, optionDecode, henc, h2, Except.map]

theorem i32Decode_intV (t : Int) (h1 : i32Min ≤ t) (h2 : t ≤ i32Max) :
    i32Decode (.intV t) = .ok t := by
  simp [i32Decode, h1, h2]

theorem i64Decode_intV (t : Int) (h1 : i64Min ≤ t) (h2 : t ≤ i64Max) :
    i64Decode (.intV t) = .ok t := by
  simp [i64Decode, h1, h2]

theorem u32Decode_intV (n : Nat) (h : n ≤ u32Max) :
    u32Decode (.intV (n : Int)) = .ok n := by
  have h1 : (0 : Int) ≤ (n : Int) := Int.natCast_nonneg n
  have h2 : (n : Int) ≤ (u32Max : Int) := by exact_mod_cast h
  simp [u32Decode, h1, h2]

theorem alistInsert_append {α : Type} (k : String) (v : α)
    (l : List (String × α)) (h : k ∉ l.map Prod.fst) :
    alistInsert k v l = l ++ [(k, v)] := by
  induction l with
  | nil => rfl
  | cons hd tl ih =>
    simp only [List.map_cons, List.mem_cons, not_or] at h
    have h1 : ¬hd.1 = k := fun he => h.1 he.symm
    simp [alistInsert, h1, ih h.2]

theorem sdParamDecodeEntries_append (el : List (String × String))
    (acc : List (String × String)) (hnd : (el.map Prod.fst).Nodup)
    (hdisj : ∀ k ∈ el.map Prod.fst, k ∉ acc.map Prod.fst) :
    sdParamDecodeEntries (el.map fun pv => (pv.1, SerdeValue.strV pv.2)) acc
      = .ok (acc ++ el) := by
  induction el generalizing acc with
  | nil => simp [sdParamDecodeEntries]
  | cons hd tl ih =>
    obtain ⟨k, v⟩ := hd
    simp only [List.map_cons, sdParamDecodeEntries]
    rw [alistInsert_append k v acc (hdisj k (by simp))]
    simp only [List.map_cons, List.nodup_cons] at hnd
    have hdisj' : ∀ k' ∈ tl.map Prod.fst, k' ∉ (acc ++ [(k, v)]).map Prod.fst := by
      intro k' hk'
      simp only [List.map_append, List.mem_append]
      rintro (hin | hin)
      · exact hdisj k' (by simp [hk']) hin
      · simp at hin
        exact hnd.1 (hin ▸ hk')
    rw [ih (acc ++ [(k, v)]) hnd.2 hdisj']
    simp

theorem sdElementDecode_encode (el : StructuredDataElement)
    (hnd : alistNodup el) :
    sdElementDecode (sdElementEncode el) = .ok el := by
  simp only [sdElementEncode, sdElementDecode]
  simpa using sdParamDecodeEntries_append el [] hnd (by simp)

theorem sdMapDecodeEntries_append (l : List (String × StructuredDataElement))
    (acc : List (String × StructuredDataElement))
    (hnd : (l.map Prod.fst).Nodup) (hinner : ∀ e ∈ l, alistNodup e.2)
    (hdisj : ∀ k ∈ l.map Prod.fst, k ∉ acc.map Prod.fst) :
    sdMapDecodeEntries (l.map fun ke => (ke.1, sdElementEncode ke.2)) acc
      = .ok (acc ++ l) := by
  induction l generalizing acc with
  | nil => simp [sdMapDecodeEntries]
  | cons hd tl ih =>
    obtain ⟨k, el⟩ := hd
    simp only [List.map_cons, sdMapDecodeEntries,
      sdElementDecode_encode el (hinner (k, el) (by simp))]
    rw [alistInsert_append k el acc (hdisj k (by simp))]
    simp only [List.map_cons, List.nodup_cons] at hnd
    have hdisj' : ∀ k' ∈ tl.map Prod.fst, k' ∉ (acc ++ [(k, el)]).map Prod.fst := by
      intro k' hk'
      simp only [List.map_append, List.mem_append]
      rintro (hin | hin)
      · exact hdisj k' (by simp [hk']) hin
      · simp at hin
        exact hnd.1 (hin ▸ hk')
    rw [ih (acc ++ [(k, el)]) hnd.2 (fun e he => hinner e (by simp [he])) hdisj']
    simp

theorem sd_deserialize_encode (sd : StructuredData) (h : sd.wf) :
    StructuredData.deserializeModel sd.encode = some sd := by
  obtain ⟨hnd, hinner⟩ := h
  simp only [StructuredData.encode, StructuredData.deserializeModel, sdMapDecode]
  rw [sdMapDecodeEntries_append sd.elements [] hnd hinner (by simp)]
  simp

/-- C2: encoding a `SyslogMessage` to the generic serialized form and
decoding that form back yields the original message in every field, for
every message satisfying the crate's machine-integer typing and map
invariants; in particular a `PID` encodes as a raw number, a `Name` as
raw text, and each decodes back to the same variant. -/
theorem encode_decode_roundtrip (m : SyslogMessage) (h : m.wf) :
    SyslogMessage.decode m.encode = some (.ok m) ∧
    (∀ p : Int, i32Min ≤ p → p ≤ i32Max →
      ProcId.decode (ProcId.encode (.PID p)) = .ok (.PID p)) ∧
    (∀ t : String, ProcId.decode (ProcId.encode (.Name t)) = .ok (.Name t)) := by
  obtain ⟨hv1, hv2, hts, hnan, hpid, hsd⟩ := h
  refine ⟨?_, fun p h1 h2 => procIdDecode_encode (.PID p) ⟨h1, h2⟩,
    fun t => procIdDecode_encode (.Name t) trivial⟩
  have hver : i32Decode (.intV m.version) = .ok m.version :=
    i32Decode_intV _ hv1 hv2
  have hts' : optionDecode i64Decode (optionEncode SerdeValue.intV m.timestamp)
      = .ok m.timestamp :=
    optionDecode_encode _ _ _ (fun a _ => by simp)
      (fun a ha => i64Decode_intV a (hts a ha).1 (hts a ha).2)
  have hnan' : optionDecode u32Decode
      (optionEncode (fun n : Nat => SerdeValue.intV (n : Int)) m.timestamp_nanos)
      = .ok m.timestamp_nanos :=
    optionDecode_encode _ _ _ (fun a _ => by simp)
      (fun a ha => u32Decode_intV a (hnan a ha))
  have hhost : optionDecode strDecode (optionEncode SerdeValue.strV m.hostname)
      = .ok m.hostname :=
    optionDecode_encode _ _ _ (fun a _ => by simp) (fun a _ => rfl)
  have happ : optionDecode strDecode (optionEncode SerdeValue.strV m.appname)
      = .ok m.appname :=
    optionDecode_encode _ _ _ (fun a _ => by simp) (fun a _ => rfl)
  have hmsgid : optionDecode strDecode (optionEncode SerdeValue.strV m.msgid)
      = .ok m.msgid :=
    optionDecode_encode _ _ _ (fun a _ => by simp) (fun a _ => rfl)
  have hpid' : optionDecode ProcId.decode (optionEncode ProcId.encode m.procid)
      = .ok m.procid :=
    optionDecode_encode _ _ _ (fun a _ => by cases a <;> simp [ProcId.encode])
      (fun a ha => procIdDecode_encode a (hpid a ha))
  have hsd' := sd_deserialize_encode m.sd hsd
  simp [SyslogMessage.encode, SyslogMessage.decode, fieldDecode, alistGet,
    severityDecode_encode, facilityDecode_encode, hver, hts', hnan', hhost,
    happ, hmsgid, hpid', hsd', strDecode]

theorem sampleMessage_wf : sampleMessage.wf := by
  refine ⟨by decide, by decide, ?_, ?_, ?_, by decide⟩
  · intro t ht
    simp [sampleMessage] at ht
    subst ht
    exact ⟨by decide, by decide⟩
  · intro n hn
    simp [sampleMessage] at hn
    subst hn
    decide
  · intro p hp
    simp [sampleMessage] at hp
    subst hp
    exact ⟨by decide, by decide⟩

/-- C2 witness: the round-trip on a concrete fully-populated message. -/
theorem encode_decode_roundtrip_witness :
    SyslogMessage.decode sampleMessage.encode = some (.ok sampleMessage) :=
  (encode_decode_roundtrip sampleMessage sampleMessage_wf).1

theorem sdParamDecodeEntries_total (ents : List (String × SerdeValue))
    (acc : List (String × String))
    (h : ∀ pv ∈ ents, ∃ s, pv.2 = SerdeValue.strV s) :
    ∃ r, sdParamDecodeEntries ents acc = .ok r := by
  induction ents generalizing acc with
  | nil => exact ⟨acc, rfl⟩
  | cons hd tl ih =>
    obtain ⟨s, hs⟩ := h hd (by simp)
    obtain ⟨k, v⟩ := hd
    simp only at hs
    subst hs
    exact ih (alistInsert k s acc) (fun pv hpv => h pv (by simp [hpv]))

theorem sdMapDecodeEntries_total (ents : List (String × SerdeValue))
    (acc : List (String × StructuredDataElement))
    (h : ∀ kv ∈ ents, ∃ inner, kv.2 = SerdeValue.mapV inner ∧
      ∀ pv ∈ inner, ∃ s, pv.2 = SerdeValue.strV s) :
    ∃ r, sdMapDecodeEntries ents acc = .ok r := by
  induction ents generalizing acc with
  | nil => exact ⟨acc, rfl⟩
  | cons hd tl ih =>
    obtain ⟨inner, hv, hinner⟩ := h hd (by simp)
    obtain ⟨k, v⟩ := hd
    simp only at hv
    subst hv
    obtain ⟨el, hel⟩ := sdParamDecodeEntries_total inner [] hinner
    have hdec : sdElementDecode (SerdeValue.mapV inner) = .ok el := hel
    simp only [sdMapDecodeEntries, hdec]
    exact ih (alistInsert k el acc) (fun kv hkv => h kv (by simp [hkv]))

/-- C10: `Deserialize for StructuredData` unwraps the inner result, so a
malformed document (here, a bare integer) makes it crash — modelled by
`none` — instead of returning a decode error, while for every well-formed
map-of-maps document the error branch is unreachable and it returns the
decoded `StructuredData`. -/
theorem sd_deserialize_crash_and_total :
    StructuredData.deserializeModel (SerdeValue.intV 3) = none ∧
    (∀ v : SerdeValue, WfSdDoc v →
      ∃ sd, StructuredData.deserializeModel v = some sd) := by
  refine ⟨rfl, ?_⟩
  intro v hv
  cases v with
  | mapV ents =>
    obtain ⟨r, hr⟩ := sdMapDecodeEntries_total ents [] hv
    exact ⟨⟨r⟩, by simp [StructuredData.deserializeModel, sdMapDecode, hr]⟩
  | nullV => exact hv.elim
  | intV n => exact hv.elim
  | strV s => exact hv.elim

theorem spanP_all_append (p : Char → Bool) (ds : List Char) (b : Char)
    (r : List Char) (h : ∀ c ∈ ds, p c = true) (hb : p b = false) :
    spanP p (ds ++ b :: r) = (ds, b :: r) := by
  induction ds with
  | nil => simp [spanP, hb]
  | cons c t ih =>
    have hc : p c = true := h c (by simp)
    have iht := ih (fun x hx => h x (by simp [hx]))
    simp [spanP, hc, iht, List.append_eq]

theorem priDigitChar_isDigit (d : Nat) (h : d < 10) :
    (priDigitChar d).isDigit = true := by
  interval_cases d <;> decide

theorem digitVal_priDigitChar (d : Nat) (h : d < 10) :
    digitVal (priDigitChar d) = d := by
  interval_cases d <;> decide

theorem priDigits_all_digit (n : Nat) (h : n < 1000) :
    ∀ c ∈ priDigits n, c.isDigit = true := by
  intro c hc
  unfold priDigits at hc
  split at hc
  · simp at hc
    subst hc
    exact priDigitChar_isDigit n (by omega)
  · split at hc
    · simp at hc
      rcases hc with h1 | h1 <;> subst h1
      · exact priDigitChar_isDigit _ (by omega)
      · exact priDigitChar_isDigit _ (by omega)
    · simp at hc
      rcases hc with h1 | h1 | h1 <;> subst h1
      · exact priDigitChar_isDigit _ (by omega)
      · exact priDigitChar_isDigit _ (by omega)
      · exact priDigitChar_isDigit _ (by omega)

theorem digitsToNat_priDigits (n : Nat) (h : n < 1000) :
    digitsToNat (priDigits n) = n := by
  unfold priDigits digitsToNat
  split
  · simp [List.foldl, digitVal_priDigitChar n (by omega)]
  · split
    · simp [List.foldl,
        digitVal_priDigitChar _ (show n / 10 < 10 by omega),
        digitVal_priDigitChar _ (show n % 10 < 10 by omega)]
      omega
    · simp [List.foldl,
        digitVal_priDigitChar _ (show n / 100 < 10 by omega),
        digitVal_priDigitChar _ (show n / 10 % 10 < 10 by omega),
        digitVal_priDigitChar _ (show n % 10 < 10 by omega)]
      omega

theorem priDigits_length (n : Nat) :
    1 ≤ (priDigits n).length ∧ (priDigits n).length ≤ 3 := by
  unfold priDigits
  split
  · simp
  · split <;> simp

theorem parsePri_mkPriMessage (pri : Nat) (h : pri ≤ 191) :
    parsePri (mkPriMessage pri) = .ok (pri, "1 - - - - - -".data) := by
  have hlen := priDigits_length pri
  have hspan := spanP_all_append Char.isDigit (priDigits pri) '>'
    ("1 - - - - - -".data) (priDigits_all_digit pri (by omega)) (by decide)
  simp only [mkPriMessage, parsePri, hspan, digitsToNat_priDigits pri (by omega)]
  simp [hlen.1, hlen.2, h]

theorem facility_from_int_exists (f : Nat) (h : f < 24) :
    ∃ fac, SyslogFacility.from_int (f : Int) = some fac ∧
      fac.toInt = (f : Int) := by
  interval_cases f <;> exact ⟨_, rfl, rfl⟩

theorem severity_from_int_exists (s : Nat) (h : s < 8) :
    ∃ sev, SyslogSeverity.from_int (s : Int) = some sev ∧
      sev.toInt = (s : Int) := by
  interval_cases s <;> exact ⟨_, rfl, rfl⟩

/-- C1: parsing a well-formed message whose PRI field encodes `f*8+s`
(for any facility number `f ≤ 23` and severity number `s ≤ 7`) succeeds
and yields exactly the facility with value `f` and the severity with
value `s`; recomputing `facility*8 + severity` recovers the original PRI
integer. -/
theorem pri_encodes_facility_severity (f s : Nat) (hf : f ≤ 23) (hs : s ≤ 7) :
    ∃ m, parse_message_chars (mkPriMessage (f * 8 + s)) = .ok m ∧
      m.facility.toInt = (f : Int) ∧ m.severity.toInt = (s : Int) ∧
      m.facility.toInt * 8 + m.severity.toInt = ((f * 8 + s : Nat) : Int) := by
  obtain ⟨fac, hfac, hfacv⟩ := facility_from_int_exists f (by omega)
  obtain ⟨sev, hsev, hsevv⟩ := severity_from_int_exists s (by omega)
  have hdiv : ((f * 8 + s : Nat) : Int) / 8 = ((f : Nat) : Int) := by
    push_cast
    omega
  have hmod : ((f * 8 + s : Nat) : Int) % 8 = ((s : Nat) : Int) := by
    push_cast
    omega
  refine ⟨⟨sev, fac, 1, none, none, none, none, none, none,
    StructuredData.new_empty, ""⟩, ?_, hfacv, hsevv, ?_⟩
  · simp only [parse_message_chars,
      parsePri_mkPriMessage (f * 8 + s) (by omega), hdiv, hmod, hfac, hsev]
    rfl
  · rw [hfacv, hsevv]
    push_cast
    ring

/-- C1 witness: the PRI value 14 = 1*8+6 decodes to facility 1 (user) and
severity 6 (info). -/
theorem pri_encodes_facility_severity_witness :
    ∃ m, parse_message_chars (mkPriMessage (1 * 8 + 6)) = .ok m ∧
      m.facility.toInt = ((1 : Nat) : Int) ∧ m.severity.toInt = ((6 : Nat) : Int) ∧
      m.facility.toInt * 8 + m.severity.toInt = ((1 * 8 + 6 : Nat) : Int) :=
  pri_encodes_facility_severity 1 6 (by omega) (by omega)

/-- C10 witness: a concrete well-formed map-of-maps document decodes
successfully. -/
theorem sd_deserialize_crash_and_total_witness :
    ∃ sd, StructuredData.deserializeModel
      (SerdeValue.mapV [("a", SerdeValue.mapV [("b", SerdeValue.strV "c")])])
      = some sd :=
  sd_deserialize_crash_and_total.2
    (SerdeValue.mapV [("a", SerdeValue.mapV [("b", SerdeValue.strV "c")])])
    (by
      intro kv hkv
      simp only [List.mem_singleton] at hkv
      subst hkv
      refine ⟨[("b", SerdeValue.strV "c")], rfl, ?_⟩
      intro pv hpv
      simp only [List.mem_singleton] at hpv
      subst hpv
      exact ⟨"c", rfl⟩)

/-- C7 witness: a non-canonical name fails on both enumerations, and one
concrete canonical round-trip. -/
theorem name_conversions_roundtrip_witness :
    SyslogSeverity.from_str "nonsense" = .error .BadSeverityInPri ∧
    SyslogFacility.from_str "nonsense" = .error .BadFacilityInPri ∧
    SyslogSeverity.from_str (SyslogSeverity.as_str .SEV_WARNING) =
      .ok .SEV_WARNING :=
  ⟨name_conversions_roundtrip.2.2.1 "nonsense" (fun s => by cases s <;> decide),
   name_conversions_roundtrip.2.2.2 "nonsense" (fun f => by cases f <;> decide),
   name_conversions_roundtrip.1 .SEV_WARNING⟩

end Syslog
